import Mathlib

/-!
Verification development for the PipeWire screen-capture module
(`video_capture/pipewire.cpp`): a shallow embedding of the session data
model, the buffer-delivery handler `on_process`, the converter
`pw_frame_to_uv_frame_memcpy`, the pull entry point
`vidcap_screen_pw_grab`, the `screen_cast_session::pw_` destructor and
the option parser `parse_params`, together with theorems about them.

Machine integers are modelled as `Nat` (the quantities involved are
sizes, indices and identifiers that stay far below any overflow in the
scenarios considered); byte buffers are modelled as functions
`Nat → Nat` giving the byte at each index.
-/

/- ---------------------------------------------------------------------
   Data model: video descriptor and frames.
   `video_desc` (from video.h) carries more fields (fps is a double,
   interlacing is fixed to PROGRESSIVE, tile_count to 1); only the fields
   that vary in this module are modelled, and `video_desc_eq` is field
   equality, which is what drives the reallocation decision.
--------------------------------------------------------------------- -/

structure VideoDesc where
  width : Nat
  height : Nat
  fps : Nat
  color_spec : Nat
  deriving DecidableEq, Repr

/-- A `video_frame` as this module uses it: one tile.  The `id` field
models object identity of the heap-allocated `video_frame` (a fresh
allocation gets a fresh id); `desc` models the shape recoverable by
`video_desc_from_frame` (tile width/height plus the frame metadata). -/
structure Frame where
  id : Nat
  desc : VideoDesc
  deriving DecidableEq, Repr

/- ---------------------------------------------------------------------
   SPA types delivered by the external service (spa_buffer and friends),
   reduced to the fields `on_process` and the converter read.
--------------------------------------------------------------------- -/

structure SpaRectangle where
  width : Nat
  height : Nat
  deriving DecidableEq, Repr

structure SpaPoint where
  x : Nat
  y : Nat
  deriving DecidableEq, Repr

structure SpaRegion where
  position : SpaPoint
  size : SpaRectangle
  deriving DecidableEq, Repr

structure SpaChunk where
  offset : Nat
  size : Nat
  stride : Nat
  deriving DecidableEq, Repr

/-- One delivered `pw_buffer` as `on_process` inspects it: the single
data plane's chunk (or `none` for a null chunk pointer) and the
`SPA_META_VideoCrop` metadata if the buffer carries it. -/
structure PwBuffer where
  chunk : Option SpaChunk
  crop_meta : Option SpaRegion
  deriving DecidableEq, Repr

/-- `spa_meta_region_is_valid` (spa headers): a crop region is valid when
both dimensions are nonzero. -/
def spa_meta_region_is_valid (r : SpaRegion) : Bool :=
  decide (r.size.width ≠ 0) && decide (r.size.height ≠ 0)

/- ---------------------------------------------------------------------
   Converter: pw_frame_to_uv_frame_memcpy.
--------------------------------------------------------------------- -/

inductive spa_video_format
  | UYVY | RGB | RGBA | RGBx | YUY2 | BGRA | BGRx
  deriving DecidableEq, Repr

/-- The formats the converter flags as needing a red/blue swap
(line `bool swap_red_blue = fmt == SPA_VIDEO_FORMAT_BGRA || fmt ==
SPA_VIDEO_FORMAT_BGRx`). -/
def swap_red_blue (fmt : spa_video_format) : Bool :=
  decide (fmt = spa_video_format.BGRA) || decide (fmt = spa_video_format.BGRx)

/-- Modelled from the spec: `vc_get_linesize` (video_codec.c, not under
src/) for the 4-byte-per-pixel packed formats this module works with
(RGBA/RGBx/BGRA/BGRx): the line size of `width` pixels is 4·width bytes. -/
def vc_get_linesize (width : Nat) : Nat := 4 * width

/-- Modelled from the spec: `vc_copylineRGBA` (pixfmt_conv, not under
src/) called with shifts (16, 8, 0) performs a per-pixel red/blue
reorder: within each 4-byte pixel, output byte 0 comes from input byte
2, output byte 2 from input byte 0, and byte 1 from input byte 1 (the
fourth byte is modelled as copied; the spec constrains only the colour
triple).  `rb_swap_index k` is the source byte index within a row that
feeds output byte index `k`. -/
def rb_swap_index (k : Nat) : Nat :=
  if k % 4 = 0 then k + 2 else if k % 4 = 2 then k - 2 else k

/-- Pure pixel-level view of `rb_swap_index`: which byte of a source
pixel feeds byte `c` of an output pixel. -/
def rb_byte (fmt : spa_video_format) (c : Nat) : Nat :=
  if swap_red_blue fmt then (if c = 0 then 2 else if c = 2 then 0 else c) else c

/-- The source side of the conversion: the data plane bytes plus the
chunk fields the converter reads. -/
structure conv_src where
  data : Nat → Nat
  offset : Nat
  chunk_size : Nat
  stride : Nat

/-- The destination tile the converter fills (`dst->tiles[0]`). -/
structure uv_tile where
  width : Nat
  height : Nat
  data_len : Nat
  data : Nat → Nat

/-- Output dimensions and source start offsets: the crop rectangle if
one was passed, otherwise the full negotiated size with zero offset
(lines `unsigned start_x = 0; ... if(crop){ ... }`). -/
structure ConvDims where
  w : Nat
  h : Nat
  sx : Nat
  sy : Nat
  deriving DecidableEq, Repr

def conv_dims (size : SpaRectangle) (crop : Option SpaRegion) : ConvDims :=
  match crop with
  | some r => ⟨r.size.width, r.size.height, r.position.x, r.position.y⟩
  | none => ⟨size.width, size.height, 0, 0⟩

/-- The stride the converter uses to address source rows: the chunk's
stride, except that a zero stride is replaced by
`chunk_size / size.height` — the full negotiated image height
(lines `if(stride == 0) stride = chunk_size / size.height;`). -/
def effective_stride (stride chunk_size full_height : Nat) : Nat :=
  if stride = 0 then chunk_size / full_height else stride

/-- Byte address of the start of the source segment feeding output row
`i`: `src->datas[0].data + offset + skip + stride * (i + start_y)` with
`skip = vc_get_linesize(start_x, ...)`. -/
def conv_row_base (src : conv_src) (size : SpaRectangle)
    (crop : Option SpaRegion) (i : Nat) : Nat :=
  src.offset + vc_get_linesize (conv_dims size crop).sx
    + effective_stride src.stride src.chunk_size size.height
      * (i + (conv_dims size crop).sy)

/-- The converter.  The row loop
`for(unsigned i = 0; i < height; i++){ ... memcpy(dst_p, src_p, linesize); }`
(or `vc_copylineRGBA` on the swap path) is expressed functionally: output
byte `j` (for `j < linesize * height`) lives in row `j / linesize` at
in-row index `j % linesize` and is drawn from the corresponding source
byte.  The tile dimensions are set to the (cropped) size and `data_len`
to `linesize * height`, as in the source. -/
def pw_frame_to_uv_frame_memcpy (src : conv_src) (fmt : spa_video_format)
    (size : SpaRectangle) (crop : Option SpaRegion) : uv_tile :=
  let d := conv_dims size crop
  let linesize := vc_get_linesize d.w
  { width := d.w
    height := d.h
    data_len := linesize * d.h
    data := fun j =>
      src.data (conv_row_base src size crop (j / linesize)
        + (if swap_red_blue fmt then rb_swap_index (j % linesize)
           else j % linesize)) }

/-- Byte `c` of source pixel `(a, b)` under a given row stride, with the
pixel grid anchored at the chunk's byte offset. -/
def src_pixel_byte (src : conv_src) (stride a b c : Nat) : Nat :=
  src.data (src.offset + stride * b + 4 * a + c)

/- ---------------------------------------------------------------------
   Session state and the buffer-delivery handler `on_process`.
--------------------------------------------------------------------- -/

def QUEUE_SIZE : Nat := 3
def DEFAULT_EXPECTING_FPS : Nat := 30
def GRAB_TIMEOUT_MS : Nat := 500

/-- The parts of `screen_cast_session` that the hot path and `grab`
touch.  `blank_frames` is the `std::vector` pool used as a stack: the
vector's back (where `pop_back`/`push_back` operate) is the HEAD of this
list.  `sending_frames` is the FIFO hand-off queue, head = oldest.
`raw_size` is `pw.format.info.raw.size`; `crop_opt` is
`user_options.crop`.  `fresh` is the allocation counter backing `Frame.id`:
every id of a live frame is below it, and `vf_alloc_desc_data` hands out
`fresh` as the new frame's identity. -/
structure Session where
  in_flight_frame : Option Frame
  blank_frames : List Frame
  sending_frames : List Frame
  desc : VideoDesc
  raw_size : SpaRectangle
  crop_opt : Bool
  fresh : Nat
  deriving DecidableEq, Repr

/-- The empty-payload test of `on_process`:
`buffer->buffer->datas[0].chunk == nullptr || ...chunk->size == 0`. -/
def chunk_empty (b : PwBuffer) : Bool :=
  match b.chunk with
  | none => true
  | some ch => decide (ch.size = 0)

/-- The crop region `on_process` ends up with: present only when the
user enabled cropping and the buffer carries valid crop metadata. -/
def crop_region_of (s : Session) (b : PwBuffer) : Option SpaRegion :=
  if s.crop_opt then
    match b.crop_meta with
    | some r => if spa_meta_region_is_valid r then some r else none
    | none => none
  else none

/-- `session.desc` after the crop update
(`if(crop_region){ session.desc.width = ...; session.desc.height = ...; }`). -/
def updated_desc (s : Session) (b : PwBuffer) : VideoDesc :=
  match crop_region_of s b with
  | some r => { s.desc with width := r.size.width, height := r.size.height }
  | none => s.desc

/-- The dimensions the converter writes into the frame's tile: the crop
rectangle's if present, otherwise the full negotiated size. -/
def used_dims (s : Session) (b : PwBuffer) : Nat × Nat :=
  match crop_region_of s b with
  | some r => (r.size.width, r.size.height)
  | none => (s.raw_size.width, s.raw_size.height)

/-- The converter overwriting `dst->tiles[0].width/height`. -/
def set_dims (f : Frame) (wh : Nat × Nat) : Frame :=
  { f with desc := { f.desc with width := wh.1, height := wh.2 } }

/-- Result of handling one dequeued buffer: the updated session, how
many times `pw_stream_queue_buffer` was called for this buffer, the
frame pushed onto the hand-off queue (if the conversion succeeded), and
whether `vf_alloc_desc_data` replaced the pooled frame. -/
structure ProcessResult where
  session : Session
  released : Nat
  pushed : Option Frame
  reallocated : Bool
  deriving Repr

/-- The conversion tail of `on_process` once a blank frame `f` was taken
from the pool (with `pool'` the rest of the pool): update the descriptor
from the crop metadata, reallocate the frame if its shape mismatches the
descriptor, convert (which stamps the tile dimensions), push the frame
and queue the buffer back. -/
def processConvert (s : Session) (b : PwBuffer) (f : Frame)
    (pool' : List Frame) : ProcessResult :=
  let d := updated_desc s b
  let wh := used_dims s b
  if f.desc = d then
    { session := { s with blank_frames := pool'
                          sending_frames := s.sending_frames ++ [set_dims f wh]
                          desc := d }
      released := 1
      pushed := some (set_dims f wh)
      reallocated := false }
  else
    { session := { s with blank_frames := pool'
                          sending_frames :=
                            s.sending_frames ++ [set_dims ⟨s.fresh, d⟩ wh]
                          desc := d
                          fresh := s.fresh + 1 }
      released := 1
      pushed := some (set_dims ⟨s.fresh, d⟩ wh)
      reallocated := true }

/-- One iteration of the dequeue loop of `on_process` for a delivered
buffer: drop on empty payload (queueing the buffer back), drop on pool
exhaustion (queueing the buffer back), otherwise convert, push and queue
the buffer back. -/
def processBuffer (s : Session) (b : PwBuffer) : ProcessResult :=
  if chunk_empty b then
    { session := s, released := 1, pushed := none, reallocated := false }
  else
    match s.blank_frames with
    | [] => { session := s, released := 1, pushed := none, reallocated := false }
    | f :: pool' => processConvert s b f pool'

/- ---------------------------------------------------------------------
   The pull entry point `vidcap_screen_pw_grab`.
--------------------------------------------------------------------- -/

/-- Modelled from the spec: `synchronized_queue::timed_pop`
(utils/synchronized_queue.h, not under src/) — a bounded FIFO pop that
blocks up to the given timeout and either moves the oldest queued frame
out (success) or leaves the destination empty (timeout).  Real-time
blocking is abstracted away: success corresponds to a frame arriving
within the timeout, which at this granularity is queue nonemptiness. -/
def timed_pop (q : List Frame) (timeout_ms : Nat) : List Frame × Option Frame :=
  match q with
  | [] => (q, none)
  | f :: rest => (rest, some f)

/-- `vidcap_screen_pw_grab`: recycle the frame still held by the caller
into the pool, then `timed_pop` the hand-off queue with the fixed 500 ms
timeout; the popped frame (or nothing, on timeout) becomes the in-flight
frame and is returned. -/
def vidcap_screen_pw_grab (s : Session) : Session × Option Frame :=
  let s1 :=
    match s.in_flight_frame with
    | some f => { s with blank_frames := f :: s.blank_frames
                         in_flight_frame := none }
    | none => s
  let qr := timed_pop s1.sending_frames GRAB_TIMEOUT_MS
  ({ s1 with sending_frames := qr.1, in_flight_frame := qr.2 }, qr.2)

/- ---------------------------------------------------------------------
   Interleavings of deliveries and grabs.
--------------------------------------------------------------------- -/

/-- An observable event of the two-thread system: the PipeWire loop
thread delivering one buffer to `on_process`, or the consumer thread
calling `vidcap_screen_pw_grab`.  The pool and queue operations are
internally synchronized, so any concurrent execution is some
interleaving of these atomic events. -/
inductive Event
  | deliver (b : PwBuffer)
  | grab
  deriving Repr

/-- Outcome of running a sequence of events: the final session, the
frames pushed onto the hand-off queue by successful conversions (in push
order) and the frames returned by grab calls (in call order). -/
structure RunResult where
  final : Session
  pushed : List Frame
  grabbed : List Frame
  deriving Repr

def runEvents (s : Session) : List Event → RunResult
  | [] => ⟨s, [], []⟩
  | Event.deliver b :: rest =>
    let r := processBuffer s b
    let t := runEvents r.session rest
    ⟨t.final, r.pushed.toList ++ t.pushed, t.grabbed⟩
  | Event.grab :: rest =>
    let g := vidcap_screen_pw_grab s
    let t := runEvents g.1 rest
    ⟨t.final, t.pushed, g.2.toList ++ t.grabbed⟩

/- ---------------------------------------------------------------------
   Frame ownership accounting.
--------------------------------------------------------------------- -/

/-- Identities held by the in-flight slot. -/
def inflight_ids (s : Session) : Multiset Nat :=
  match s.in_flight_frame with
  | some f => {f.id}
  | none => 0

/-- The multiset of identities of all frames in existence, by owner:
pool, hand-off queue, in-flight slot.  (A frame being filled by the
callback exists only inside `processBuffer` and is pushed before the
handler returns, so it is never an owner at event granularity.) -/
def frameIds (s : Session) : Multiset Nat :=
  (↑(s.blank_frames.map Frame.id) : Multiset Nat)
    + ↑(s.sending_frames.map Frame.id) + inflight_ids s

/-- Well-formedness: every frame is owned by exactly one owner (no
identity appears twice), and all identities are below the allocation
counter. -/
def SessionWF (s : Session) : Prop :=
  (frameIds s).Nodup ∧ ∀ i ∈ frameIds s, i < s.fresh

instance (s : Session) : Decidable (SessionWF s) := by
  unfold SessionWF; infer_instance

/-- The number of Frame objects in existence (pool, queue and in-flight
slot together). -/
def frameCount (s : Session) : Nat := Multiset.card (frameIds s)

/-- `vidcap_screen_pw_init`: `QUEUE_SIZE` blank frames are allocated
into the pool (`vf_alloc(1)` gives frames with zeroed metadata), nothing
is queued or in flight. -/
def init_session (crop : Bool) : Session :=
  { in_flight_frame := none
    blank_frames := [⟨2, ⟨0, 0, 0, 0⟩⟩, ⟨1, ⟨0, 0, 0, 0⟩⟩, ⟨0, ⟨0, 0, 0, 0⟩⟩]
    sending_frames := []
    desc := ⟨0, 0, 0, 0⟩
    raw_size := ⟨0, 0⟩
    crop_opt := crop
    fresh := 3 }

/- ---------------------------------------------------------------------
   Teardown: screen_cast_session::pw_::~pw_.
--------------------------------------------------------------------- -/

inductive TdAction
  | loop_stop | stream_destroy | context_destroy | loop_destroy | fd_close
  deriving DecidableEq, Repr

/-- The handles the destructor inspects (`loop`, `stream`, `context`
null or not, and the portal file descriptor). -/
structure PwHandles where
  fd : Int
  loop : Bool
  context : Bool
  stream : Bool

/-- The sequence of teardown calls the destructor performs:
`pw_thread_loop_stop`, then `pw_stream_destroy`, `pw_context_destroy`,
`pw_thread_loop_destroy` (each guarded by its handle being non-null, all
guarded by the loop existing), finally `close(fd)` when `fd > 0`. -/
def pw_dtor_trace (h : PwHandles) : List TdAction :=
  (if h.loop then
      TdAction.loop_stop ::
        ((if h.stream then [TdAction.stream_destroy] else [])
          ++ (if h.context then [TdAction.context_destroy] else [])
          ++ [TdAction.loop_destroy])
    else [])
  ++ (if 0 < h.fd then [TdAction.fd_close] else [])

/-- State of the external event loop as seen by handler dispatch. -/
structure LoopState where
  running : Bool
  handler_invocations : Nat
  deriving DecidableEq, Repr

/-- Modelled from the spec: a stream event handler can run only while
the thread loop is running — `pw_thread_loop_stop` guarantees no handler
is invoked after it returns.  Firing a handler on a stopped loop is a
no-op on the invocation counter. -/
def fire_handler (st : LoopState) : LoopState :=
  if st.running then
    { st with handler_invocations := st.handler_invocations + 1 }
  else st

/-- Effect of one teardown call on the loop state: stopping the loop
clears `running`; the destroy calls never restart it. -/
def apply_td (st : LoopState) (a : TdAction) : LoopState :=
  match a with
  | TdAction.loop_stop => { st with running := false }
  | _ => st

def run_teardown (st : LoopState) (l : List TdAction) : LoopState :=
  l.foldl apply_td st

/- ---------------------------------------------------------------------
   Option parsing: parse_params and the advertised frame rate.
--------------------------------------------------------------------- -/

structure UserOptions where
  show_cursor : Bool
  restore_file : List Char
  fps : Nat
  crop : Bool
  deriving DecidableEq, Repr

def default_user_options : UserOptions :=
  { show_cursor := false, restore_file := [], fps := 0, crop := true }

inductive ParseOutcome
  | ok | noerr | fail
  deriving DecidableEq, Repr

/-- `std::string::find('=')`: index of the first `=`, if any. -/
def find_eq : List Char → Option Nat
  | [] => none
  | c :: t => if c = '=' then some 0 else (find_eq t).map (· + 1)

def digits_val (ds : List Char) : Nat :=
  ds.foldl (fun a c => 10 * a + (c.toNat - 48)) 0

def UINT32_MAX : Nat := 4294967295

/-- C++ stream extraction `is >> fps` for a `uint32_t`: a leading digit
run is converted (clamped to `UINT32_MAX` on overflow); if the value
does not start with a digit the extraction fails and (C++11) stores 0.
Sign handling is omitted — no claim concerns signed input. -/
def cpp_extract_u32 (v : List Char) : Nat :=
  let ds := v.takeWhile Char.isDigit
  if ds = [] then 0 else min (digits_val ds) UINT32_MAX

/-- `parse_params` over the already-`:`-split option tokens (each token
a character list): `help` prints usage and returns `VIDCAP_INIT_NOERR`;
`cursor` and `nocrop` set flags; `name=value` handles `fps`/`FPS` and
`restore`; anything else logs an error and returns `VIDCAP_INIT_FAIL`.
The third component counts error reports (`invalid option` logs). -/
def parse_params : List (List Char) → UserOptions →
    ParseOutcome × UserOptions × Nat
  | [], o => (ParseOutcome.ok, o, 0)
  | p :: rest, o =>
    if p = ['h', 'e', 'l', 'p'] then (ParseOutcome.noerr, o, 0)
    else if p = ['c', 'u', 'r', 's', 'o', 'r'] then
      parse_params rest { o with show_cursor := true }
    else if p = ['n', 'o', 'c', 'r', 'o', 'p'] then
      parse_params rest { o with crop := false }
    else
      match find_eq p with
      | some i =>
        if i = 0 then (ParseOutcome.fail, o, 1)
        else
          let name := p.take i
          let value := p.drop (i + 1)
          if name = ['f', 'p', 's'] ∨ name = ['F', 'P', 'S'] then
            parse_params rest { o with fps := cpp_extract_u32 value }
          else if name = ['r', 'e', 's', 't', 'o', 'r', 'e'] then
            parse_params rest { o with restore_file := value }
          else (ParseOutcome.fail, o, 1)
      | none => (ParseOutcome.fail, o, 1)

/-- The default frame-rate fraction numerator `start_pipewire` advertises:
`SPA_FRACTION(session.user_options.fps > 0 ? session.user_options.fps :
DEFAULT_EXPECTING_FPS, 1)`. -/
def framerate_def (fps : Nat) : Nat :=
  if 0 < fps then fps else DEFAULT_EXPECTING_FPS

/- ---------------------------------------------------------------------
   Concrete instances used to evaluate the theorems on closed inputs.
--------------------------------------------------------------------- -/

def stale_desc : VideoDesc := ⟨10, 10, 30, 1⟩
def full_desc : VideoDesc := ⟨100, 100, 30, 1⟩

/-- A session mid-stream whose two pooled frames still have a stale
shape while the current descriptor is `full_desc`. -/
def ex_stale_session : Session :=
  { in_flight_frame := none
    blank_frames := [⟨1, stale_desc⟩, ⟨2, stale_desc⟩]
    sending_frames := []
    desc := full_desc
    raw_size := ⟨100, 100⟩
    crop_opt := false
    fresh := 3 }

/-- A delivered buffer with a 100×100 RGBA-sized payload and no crop
metadata. -/
def ex_buffer : PwBuffer := { chunk := some ⟨0, 40000, 400⟩, crop_meta := none }

/-- The same pool situation with cropping enabled and a buffer carrying
a valid crop rectangle. -/
def ex_crop_session : Session :=
  { ex_stale_session with crop_opt := true }

def ex_crop_buffer : PwBuffer :=
  { chunk := some ⟨0, 40000, 400⟩, crop_meta := some ⟨⟨2, 2⟩, ⟨50, 60⟩⟩ }

/-- A session with a frame in flight to the caller and a frame waiting
in the hand-off queue. -/
def ex_grab_session : Session :=
  { in_flight_frame := some ⟨0, stale_desc⟩
    blank_frames := [⟨1, stale_desc⟩]
    sending_frames := [⟨2, full_desc⟩]
    desc := full_desc
    raw_size := ⟨100, 100⟩
    crop_opt := true
    fresh := 3 }

def ex_events : List Event := [Event.deliver ex_buffer, Event.grab, Event.grab]

def ex_conv_src : conv_src :=
  { data := fun n => n, offset := 3, chunk_size := 40, stride := 0 }

def ex_size : SpaRectangle := ⟨2, 4⟩

def ex_crop : SpaRegion := ⟨⟨1, 1⟩, ⟨1, 2⟩⟩

def ex_handles : PwHandles :=
  { fd := 5, loop := true, context := true, stream := true }

/- ---------------------------------------------------------------------
   Theorems.
--------------------------------------------------------------------- -/

theorem processConvert_released (s : Session) (b : PwBuffer) (f : Frame)
    (pool' : List Frame) : (processConvert s b f pool').released = 1 := by
  simp only [processConvert]
  split <;> rfl

theorem processConvert_pushed (s : Session) (b : PwBuffer) (f : Frame)
    (pool' : List Frame) :
    ∃ g, (processConvert s b f pool').pushed = some g
      ∧ (processConvert s b f pool').session.sending_frames
          = s.sending_frames ++ [g]
      ∧ (processConvert s b f pool').session.blank_frames = pool' := by
  simp only [processConvert]
  split
  · exact ⟨_, rfl, rfl, rfl⟩
  · exact ⟨_, rfl, rfl, rfl⟩

/-- C3: on every path through the buffer-delivery handler the dequeued
external buffer is queued back exactly once; on pool exhaustion the
delivery is dropped without allocating and with the session untouched,
and the buffer is still released. -/
theorem c3_buffer_always_released (s : Session) (b : PwBuffer) :
    (processBuffer s b).released = 1
    ∧ (s.blank_frames = [] →
        (processBuffer s b).session = s
        ∧ (processBuffer s b).pushed = none
        ∧ (processBuffer s b).reallocated = false) := by
  constructor
  · unfold processBuffer
    by_cases hc : chunk_empty b = true
    · simp [hc]
    · simp only [hc, Bool.false_eq_true, if_false]
      cases hb : s.blank_frames with
      | nil => rfl
      | cons f pool' => exact processConvert_released s b f pool'
  · intro hp
    unfold processBuffer
    by_cases hc : chunk_empty b = true
    · simp [hc]
    · simp [hc, hp]

theorem c3_buffer_always_released_witness :
    (processBuffer ex_stale_session ex_buffer).released = 1
    ∧ ((processBuffer { ex_stale_session with blank_frames := [] }
          ex_buffer).session
        = { ex_stale_session with blank_frames := [] }
      ∧ (processBuffer { ex_stale_session with blank_frames := [] }
          ex_buffer).pushed = none
      ∧ (processBuffer { ex_stale_session with blank_frames := [] }
          ex_buffer).reallocated = false) :=
  ⟨(c3_buffer_always_released ex_stale_session ex_buffer).1,
   (c3_buffer_always_released { ex_stale_session with blank_frames := [] }
      ex_buffer).2 rfl⟩

/-- C6 counterexample: a reported stride of 7 for a width-2 RGBA image
does not match the expected line size (8), yet the converter keeps using
7 instead of rederiving `chunk_size / image_height` (100 / 5 = 20): the
rederivation is triggered by a ZERO stride only, not by any mismatch
with an expected value. -/
theorem c6_stride_counterexample :
    (7 : Nat) ≠ vc_get_linesize 2
    ∧ effective_stride 7 100 5 = 7
    ∧ effective_stride 7 100 5 ≠ 100 / 5 := by decide

/-- C6 (amended): when the chunk reports stride zero, the stride used to
address source rows is `chunk_size / size.height` with the FULL
negotiated image height — for any crop rectangle, the converted output
is the one obtained with that stride; a nonzero reported stride is used
as reported. -/
theorem c6_zero_stride_full_height (src : conv_src) (fmt : spa_video_format)
    (size : SpaRectangle) (crop : Option SpaRegion) (h0 : src.stride = 0) :
    effective_stride src.stride src.chunk_size size.height
        = src.chunk_size / size.height
    ∧ (∀ j, (pw_frame_to_uv_frame_memcpy src fmt size crop).data j
          = (pw_frame_to_uv_frame_memcpy
              { src with stride := src.chunk_size / size.height }
              fmt size crop).data j)
    ∧ (∀ st, st ≠ 0 → effective_stride st src.chunk_size size.height = st) := by
  refine ⟨by simp [effective_stride, h0], ?_, ?_⟩
  · intro j
    unfold pw_frame_to_uv_frame_memcpy conv_row_base effective_stride
    by_cases hq : src.chunk_size / size.height = 0 <;> simp [h0, hq]
  · intro st hst
    simp [effective_stride, hst]

theorem c6_zero_stride_full_height_witness :
    effective_stride ex_conv_src.stride ex_conv_src.chunk_size ex_size.height
        = 10
    ∧ (pw_frame_to_uv_frame_memcpy ex_conv_src spa_video_format.RGBA ex_size
          (some ex_crop)).data 0
        = (pw_frame_to_uv_frame_memcpy { ex_conv_src with stride := 10 }
            spa_video_format.RGBA ex_size (some ex_crop)).data 0
    ∧ effective_stride 7 ex_conv_src.chunk_size ex_size.height = 7 := by
  have h := c6_zero_stride_full_height ex_conv_src spa_video_format.RGBA
    ex_size (some ex_crop) rfl
  exact ⟨h.1, h.2.1 0, h.2.2 7 (by decide)⟩

theorem run_teardown_keeps_stopped (l : List TdAction) :
    ∀ st : LoopState, st.running = false → (run_teardown st l).running = false := by
  induction l with
  | nil => intro st h; exact h
  | cons a t ih =>
    intro st h
    have ha : (apply_td st a).running = false := by
      cases a <;> simp [apply_td, h]
    exact ih _ ha

/-- C9: the `pw_` destructor stops the thread loop as its first action —
so a handler invocation attempted after any nonempty prefix of the
teardown has run leaves the invocation counter frozen — and only then
destroys the remaining objects, stream before context before loop
(file-descriptor close last). -/
theorem c9_teardown_order (h : PwHandles) (hl : h.loop = true) :
    (pw_dtor_trace h).head? = some TdAction.loop_stop
    ∧ (∀ pre post, pw_dtor_trace h = pre ++ post → pre ≠ [] →
        ∀ st : LoopState,
          (fire_handler (run_teardown st pre)).handler_invocations
            = (run_teardown st pre).handler_invocations)
    ∧ ∃ t1 t2 t3,
        pw_dtor_trace h
          = TdAction.loop_stop :: (t1 ++ (t2 ++ (TdAction.loop_destroy :: t3)))
        ∧ (h.stream = true → t1 = [TdAction.stream_destroy])
        ∧ (h.stream = false → t1 = [])
        ∧ (h.context = true → t2 = [TdAction.context_destroy])
        ∧ (h.context = false → t2 = [])
        ∧ (∀ a ∈ t3, a = TdAction.fd_close) := by
  have htr : pw_dtor_trace h
      = TdAction.loop_stop ::
          ((if h.stream then [TdAction.stream_destroy] else [])
            ++ ((if h.context then [TdAction.context_destroy] else [])
              ++ (TdAction.loop_destroy ::
                    (if 0 < h.fd then [TdAction.fd_close] else [])))) := by
    simp [pw_dtor_trace, hl]
  refine ⟨by rw [htr]; rfl, ?_, ?_⟩
  · intro pre post hsplit hpre st
    cases pre with
    | nil => exact absurd rfl hpre
    | cons a pre' =>
      rw [htr, List.cons_append] at hsplit
      have ha : TdAction.loop_stop = a := (List.cons.injEq _ _ _ _ ▸ hsplit).1
      have hrun : (run_teardown st (a :: pre')).running = false := by
        rw [← ha]
        exact run_teardown_keeps_stopped pre' _ rfl
      simp [fire_handler, hrun]
  · refine ⟨if h.stream then [TdAction.stream_destroy] else [],
      if h.context then [TdAction.context_destroy] else [],
      if 0 < h.fd then [TdAction.fd_close] else [],
      htr, ?_, ?_, ?_, ?_, ?_⟩
    · intro hs; simp [hs]
    · intro hs; simp [hs]
    · intro hc; simp [hc]
    · intro hc; simp [hc]
    · intro a ha
      by_cases hf : 0 < h.fd
      · simp [hf] at ha; simp [ha]
      · simp [hf] at ha

theorem c9_teardown_order_witness :
    (pw_dtor_trace ex_handles).head? = some TdAction.loop_stop
    ∧ (fire_handler (run_teardown ⟨true, 0⟩ [TdAction.loop_stop])).handler_invocations
        = (run_teardown ⟨true, 0⟩ [TdAction.loop_stop]).handler_invocations := by
  have h := c9_teardown_order ex_handles rfl
  refine ⟨h.1, ?_⟩
  exact h.2.1 [TdAction.loop_stop]
    [TdAction.stream_destroy, TdAction.context_destroy, TdAction.loop_destroy,
      TdAction.fd_close] (by decide) (by decide) ⟨true, 0⟩

/-- C10: a `fps=` option whose value does not parse as a number neither
fails `parse_params` nor reports anything: the token is consumed leaving
the fps option at 0, and the session then advertises the default
preferred frame rate numerator `DEFAULT_EXPECTING_FPS = 30`. -/
theorem c10_bad_fps_value (v : List Char) (rest : List (List Char))
    (o : UserOptions) (hv : v.takeWhile Char.isDigit = []) :
    parse_params (('f' :: 'p' :: 's' :: '=' :: v) :: rest) o
        = parse_params rest { o with fps := 0 }
    ∧ framerate_def 0 = 30
    ∧ DEFAULT_EXPECTING_FPS = 30 := by
  refine ⟨?_, by decide, by decide⟩
  have hfind : find_eq ('f' :: 'p' :: 's' :: '=' :: v) = some 3 := by
    simp [find_eq]
  have hef : cpp_extract_u32 v = 0 := by
    simp [cpp_extract_u32, hv]
  simp [parse_params, hfind, hef]

theorem c10_bad_fps_value_witness :
    parse_params [['f', 'p', 's', '=', 'a', 'b']] default_user_options
        = parse_params [] { default_user_options with fps := 0 }
    ∧ framerate_def 0 = 30
    ∧ DEFAULT_EXPECTING_FPS = 30 :=
  c10_bad_fps_value ['a', 'b'] [] default_user_options (by decide)

theorem conv_data_decomp (src : conv_src) (fmt : spa_video_format)
    (size : SpaRectangle) (crop : Option SpaRegion) (i k : Nat)
    (hk : k < vc_get_linesize (conv_dims size crop).w) :
    (pw_frame_to_uv_frame_memcpy src fmt size crop).data
        (vc_get_linesize (conv_dims size crop).w * i + k)
      = src.data (conv_row_base src size crop i
          + (if swap_red_blue fmt then rb_swap_index k else k)) := by
  set L := vc_get_linesize (conv_dims size crop).w with hL
  have hw : 0 < L := Nat.lt_of_le_of_lt (Nat.zero_le k) hk
  have hdiv : (L * i + k) / L = i := by
    rw [Nat.add_comm, Nat.add_mul_div_left _ _ hw, Nat.div_eq_of_lt hk,
      Nat.zero_add]
  have hmod : (L * i + k) % L = k := by
    rw [Nat.add_comm, Nat.add_mul_mod_self_left, Nat.mod_eq_of_lt hk]
  show src.data (conv_row_base src size crop ((L * i + k) / L)
      + (if swap_red_blue fmt then rb_swap_index ((L * i + k) % L)
         else (L * i + k) % L)) = _
  rw [hdiv, hmod]

theorem rb_swap_index_pixel (p c : Nat) (hc : c < 4) :
    rb_swap_index (4 * p + c)
      = 4 * p + (if c = 0 then 2 else if c = 2 then 0 else c) := by
  have hmod : (4 * p + c) % 4 = c := by omega
  unfold rb_swap_index
  rw [hmod]
  interval_cases c <;> simp <;> omega

/-- C4: converting with a crop rectangle `(x, y, w, h)` inside a `W × H`
source produces a tile of dimensions `(w, h)` whose pixel `(p, i)` is
drawn from source pixel `(x + p, y + i)` — channel-reordered through
`rb_byte` for the red/blue-swapped formats, and byte for byte for the
rest, so output row `i` is the `w`-pixel segment of source row `y + i`
starting at column `x`; in particular output pixel `(0, 0)` is source
pixel `(x, y)`. -/
theorem c4_crop_correct (src : conv_src) (fmt : spa_video_format)
    (size : SpaRectangle) (r : SpaRegion)
    (hx : r.position.x + r.size.width ≤ size.width)
    (hy : r.position.y + r.size.height ≤ size.height) :
    (pw_frame_to_uv_frame_memcpy src fmt size (some r)).width = r.size.width
    ∧ (pw_frame_to_uv_frame_memcpy src fmt size (some r)).height
        = r.size.height
    ∧ (∀ i p c, i < r.size.height → p < r.size.width → c < 3 →
        (pw_frame_to_uv_frame_memcpy src fmt size (some r)).data
            (vc_get_linesize r.size.width * i + (4 * p + c))
          = src_pixel_byte src
              (effective_stride src.stride src.chunk_size size.height)
              (r.position.x + p) (r.position.y + i) (rb_byte fmt c))
    ∧ (swap_red_blue fmt = false →
        ∀ i p c, i < r.size.height → p < r.size.width → c < 4 →
        (pw_frame_to_uv_frame_memcpy src fmt size (some r)).data
            (vc_get_linesize r.size.width * i + (4 * p + c))
          = src_pixel_byte src
              (effective_stride src.stride src.chunk_size size.height)
              (r.position.x + p) (r.position.y + i) c) := by
  refine ⟨rfl, rfl, ?_, ?_⟩
  · intro i p c hi hp hc
    have hk : 4 * p + c < vc_get_linesize (conv_dims size (some r)).w := by
      show 4 * p + c < 4 * r.size.width
      omega
    have h1 : (pw_frame_to_uv_frame_memcpy src fmt size (some r)).data
          (vc_get_linesize r.size.width * i + (4 * p + c))
        = src.data (conv_row_base src size (some r) i
            + (if swap_red_blue fmt then rb_swap_index (4 * p + c)
               else 4 * p + c)) :=
      conv_data_decomp src fmt size (some r) i (4 * p + c) hk
    rw [h1]
    unfold conv_row_base src_pixel_byte conv_dims vc_get_linesize rb_byte
    by_cases hs : swap_red_blue fmt = true
    · rw [if_pos hs, rb_swap_index_pixel p c (by omega), hs, if_pos rfl]
      congr 1
      ring
    · rw [if_neg hs]
      have hs' : swap_red_blue fmt = false := by
        revert hs; cases swap_red_blue fmt <;> simp
      rw [hs']
      simp only [Bool.false_eq_true, if_false]
      congr 1
      ring
  · intro hs i p c hi hp hc
    have hk : 4 * p + c < vc_get_linesize (conv_dims size (some r)).w := by
      show 4 * p + c < 4 * r.size.width
      omega
    have h1 : (pw_frame_to_uv_frame_memcpy src fmt size (some r)).data
          (vc_get_linesize r.size.width * i + (4 * p + c))
        = src.data (conv_row_base src size (some r) i
            + (if swap_red_blue fmt then rb_swap_index (4 * p + c)
               else 4 * p + c)) :=
      conv_data_decomp src fmt size (some r) i (4 * p + c) hk
    rw [h1]
    unfold conv_row_base src_pixel_byte conv_dims vc_get_linesize
    rw [hs]
    simp only [Bool.false_eq_true, if_false]
    congr 1
    ring

theorem c4_crop_correct_witness :
    (pw_frame_to_uv_frame_memcpy ex_conv_src spa_video_format.RGBA ex_size
        (some ex_crop)).width = ex_crop.size.width
    ∧ (pw_frame_to_uv_frame_memcpy ex_conv_src spa_video_format.RGBA ex_size
        (some ex_crop)).height = ex_crop.size.height
    ∧ (pw_frame_to_uv_frame_memcpy ex_conv_src spa_video_format.RGBA ex_size
        (some ex_crop)).data
          (vc_get_linesize ex_crop.size.width * 0 + (4 * 0 + 0))
      = src_pixel_byte ex_conv_src
          (effective_stride ex_conv_src.stride ex_conv_src.chunk_size
            ex_size.height)
          (ex_crop.position.x + 0) (ex_crop.position.y + 0)
          (rb_byte spa_video_format.RGBA 0) := by
  have h := c4_crop_correct ex_conv_src spa_video_format.RGBA ex_size ex_crop
    (by decide) (by decide)
  exact ⟨h.1, h.2.1, h.2.2.1 0 0 0 (by decide) (by decide) (by decide)⟩

/-- C5: the converter flags exactly BGRA and BGRx as needing a red/blue
swap; for those formats each output pixel's byte triple satisfies
output 0 = input 2, output 1 = input 1 and output 2 = input 0, while for
every other format each row is copied byte for byte with no
reordering. -/
theorem c5_channel_swap (src : conv_src) (fmt : spa_video_format)
    (size : SpaRectangle) (crop : Option SpaRegion) :
    (swap_red_blue fmt = true
      ↔ fmt = spa_video_format.BGRA ∨ fmt = spa_video_format.BGRx)
    ∧ (swap_red_blue fmt = true →
        ∀ i p, i < (conv_dims size crop).h → p < (conv_dims size crop).w →
          (pw_frame_to_uv_frame_memcpy src fmt size crop).data
              (vc_get_linesize (conv_dims size crop).w * i + (4 * p + 0))
            = src.data (conv_row_base src size crop i + (4 * p + 2))
          ∧ (pw_frame_to_uv_frame_memcpy src fmt size crop).data
              (vc_get_linesize (conv_dims size crop).w * i + (4 * p + 1))
            = src.data (conv_row_base src size crop i + (4 * p + 1))
          ∧ (pw_frame_to_uv_frame_memcpy src fmt size crop).data
              (vc_get_linesize (conv_dims size crop).w * i + (4 * p + 2))
            = src.data (conv_row_base src size crop i + (4 * p)))
    ∧ (swap_red_blue fmt = false →
        ∀ i k, i < (conv_dims size crop).h
          → k < vc_get_linesize (conv_dims size crop).w →
          (pw_frame_to_uv_frame_memcpy src fmt size crop).data
              (vc_get_linesize (conv_dims size crop).w * i + k)
            = src.data (conv_row_base src size crop i + k)) := by
  refine ⟨by cases fmt <;> simp [swap_red_blue], ?_, ?_⟩
  · intro hs i p hi hp
    have hw : 0 < (conv_dims size crop).w := Nat.lt_of_le_of_lt (Nat.zero_le p) hp
    refine ⟨?_, ?_, ?_⟩
    · have hk : 4 * p + 0 < vc_get_linesize (conv_dims size crop).w := by
        show 4 * p + 0 < 4 * (conv_dims size crop).w
        omega
      rw [conv_data_decomp src fmt size crop i (4 * p + 0) hk, if_pos hs,
        rb_swap_index_pixel p 0 (by omega)]
      norm_num
    · have hk : 4 * p + 1 < vc_get_linesize (conv_dims size crop).w := by
        show 4 * p + 1 < 4 * (conv_dims size crop).w
        omega
      rw [conv_data_decomp src fmt size crop i (4 * p + 1) hk, if_pos hs,
        rb_swap_index_pixel p 1 (by omega)]
      norm_num
    · have hk : 4 * p + 2 < vc_get_linesize (conv_dims size crop).w := by
        show 4 * p + 2 < 4 * (conv_dims size crop).w
        omega
      rw [conv_data_decomp src fmt size crop i (4 * p + 2) hk, if_pos hs,
        rb_swap_index_pixel p 2 (by omega)]
      simp
  · intro hs i k hi hk
    rw [conv_data_decomp src fmt size crop i k hk, hs]
    simp only [Bool.false_eq_true, if_false]

theorem c5_channel_swap_witness :
    (swap_red_blue spa_video_format.BGRA = true
      ↔ spa_video_format.BGRA = spa_video_format.BGRA
        ∨ spa_video_format.BGRA = spa_video_format.BGRx)
    ∧ (pw_frame_to_uv_frame_memcpy ex_conv_src spa_video_format.BGRA ex_size
          (some ex_crop)).data
            (vc_get_linesize ex_crop.size.width * 0 + (4 * 0 + 0))
        = ex_conv_src.data
            (conv_row_base ex_conv_src ex_size (some ex_crop) 0 + (4 * 0 + 2)) := by
  have h := c5_channel_swap ex_conv_src spa_video_format.BGRA ex_size
    (some ex_crop)
  exact ⟨h.1, (h.2.1 rfl 0 0 (by decide) (by decide)).1⟩

theorem processBuffer_drop_empty (s : Session) (b : PwBuffer)
    (hce : chunk_empty b = true) :
    processBuffer s b
      = { session := s, released := 1, pushed := none, reallocated := false } := by
  simp [processBuffer, hce]

theorem processBuffer_drop_pool (s : Session) (b : PwBuffer)
    (hbf : s.blank_frames = []) :
    processBuffer s b
      = { session := s, released := 1, pushed := none, reallocated := false } := by
  unfold processBuffer
  rw [hbf]
  split <;> rfl

theorem processBuffer_eq_convert (s : Session) (b : PwBuffer) (f : Frame)
    (pool' : List Frame) (hce : chunk_empty b = false)
    (hbf : s.blank_frames = f :: pool') :
    processBuffer s b = processConvert s b f pool' := by
  simp [processBuffer, hce, hbf]

theorem processBuffer_sending (s : Session) (b : PwBuffer) :
    (processBuffer s b).session.sending_frames
      = s.sending_frames ++ (processBuffer s b).pushed.toList := by
  cases hce : chunk_empty b with
  | true => rw [processBuffer_drop_empty s b hce]; simp
  | false =>
    cases hbf : s.blank_frames with
    | nil => rw [processBuffer_drop_pool s b hbf]; simp
    | cons f pool' =>
      rw [processBuffer_eq_convert s b f pool' hce hbf]
      obtain ⟨g, hg, hsend, -⟩ := processConvert_pushed s b f pool'
      rw [hsend, hg]
      rfl

theorem grab_pop (s : Session) :
    (vidcap_screen_pw_grab s).2.toList
        ++ (vidcap_screen_pw_grab s).1.sending_frames
      = s.sending_frames := by
  cases hif : s.in_flight_frame <;> cases hsf : s.sending_frames <;>
    simp [vidcap_screen_pw_grab, timed_pop, hif, hsf]

theorem runEvents_queue (evs : List Event) : ∀ s : Session,
    (runEvents s evs).grabbed ++ (runEvents s evs).final.sending_frames
      = s.sending_frames ++ (runEvents s evs).pushed := by
  induction evs with
  | nil => intro s; simp [runEvents]
  | cons e rest ih =>
    intro s
    cases e with
    | deliver b =>
      simp only [runEvents]
      rw [ih (processBuffer s b).session, processBuffer_sending s b,
        List.append_assoc]
    | grab =>
      simp only [runEvents]
      rw [List.append_assoc, ih (vidcap_screen_pw_grab s).1,
        ← List.append_assoc, grab_pop s]

/-- C1: starting from an empty hand-off queue, the frames returned by
successive grab calls, in call order, are exactly an initial run of the
frames pushed by successful buffer-delivery conversions, in push order —
FIFO, with no reordering and no duplication; the frames not yet observed
are precisely those still sitting in the queue. -/
theorem c1_fifo_order (s : Session) (evs : List Event)
    (h0 : s.sending_frames = []) :
    (runEvents s evs).pushed
      = (runEvents s evs).grabbed
        ++ (runEvents s evs).final.sending_frames := by
  have h := runEvents_queue evs s
  rw [h0] at h
  simpa using h.symm

theorem c1_fifo_order_witness :
    (runEvents (init_session false) ex_events).pushed
      = (runEvents (init_session false) ex_events).grabbed
        ++ (runEvents (init_session false) ex_events).final.sending_frames :=
  c1_fifo_order (init_session false) ex_events rfl

/-- C7: `grab` first recycles a frame still held by the caller into the
pool, then pops the hand-off queue with the fixed 500 ms timeout: on
success the dequeued frame becomes the (single, `Option`-typed)
in-flight frame and is returned; with nothing queued it returns the
"no frame" value `none`, which is an ordinary result, not an error. -/
theorem c7_grab (s : Session) :
    GRAB_TIMEOUT_MS = 500
    ∧ (∀ f, s.in_flight_frame = some f →
        (vidcap_screen_pw_grab s).1.blank_frames = f :: s.blank_frames)
    ∧ (vidcap_screen_pw_grab s).2 = (vidcap_screen_pw_grab s).1.in_flight_frame
    ∧ (∀ f rest, s.sending_frames = f :: rest →
        (vidcap_screen_pw_grab s).2 = some f
        ∧ (vidcap_screen_pw_grab s).1.sending_frames = rest)
    ∧ (s.sending_frames = [] → (vidcap_screen_pw_grab s).2 = none) := by
  refine ⟨rfl, ?_, ?_, ?_, ?_⟩
  · intro f hf
    cases hsf : s.sending_frames <;>
      simp [vidcap_screen_pw_grab, timed_pop, hf, hsf]
  · cases hif : s.in_flight_frame <;> cases hsf : s.sending_frames <;>
      simp [vidcap_screen_pw_grab, timed_pop, hif, hsf]
  · intro f rest hsf
    cases hif : s.in_flight_frame <;>
      simp [vidcap_screen_pw_grab, timed_pop, hif, hsf]
  · intro hsf
    cases hif : s.in_flight_frame <;>
      simp [vidcap_screen_pw_grab, timed_pop, hif, hsf]

theorem c7_grab_witness :
    GRAB_TIMEOUT_MS = 500
    ∧ (vidcap_screen_pw_grab ex_grab_session).1.blank_frames
        = ⟨0, stale_desc⟩ :: ex_grab_session.blank_frames
    ∧ (vidcap_screen_pw_grab ex_grab_session).2 = some ⟨2, full_desc⟩
    ∧ (vidcap_screen_pw_grab ex_grab_session).1.sending_frames = [] := by
  have h := c7_grab ex_grab_session
  exact ⟨h.1, h.2.1 ⟨0, stale_desc⟩ rfl,
    (h.2.2.2.1 ⟨2, full_desc⟩ [] rfl).1, (h.2.2.2.1 ⟨2, full_desc⟩ [] rfl).2⟩

theorem processConvert_blank (s : Session) (b : PwBuffer) (f : Frame)
    (pool' : List Frame) :
    (processConvert s b f pool').session.blank_frames = pool' := by
  simp only [processConvert]
  split <;> rfl

theorem processConvert_crop_opt (s : Session) (b : PwBuffer) (f : Frame)
    (pool' : List Frame) :
    (processConvert s b f pool').session.crop_opt = s.crop_opt := by
  simp only [processConvert]
  split <;> rfl

theorem processConvert_desc (s : Session) (b : PwBuffer) (f : Frame)
    (pool' : List Frame) :
    (processConvert s b f pool').session.desc = updated_desc s b := by
  simp only [processConvert]
  split <;> rfl

theorem processConvert_realloc_false (s : Session) (b : PwBuffer) (f : Frame)
    (pool' : List Frame) (h : f.desc = updated_desc s b) :
    (processConvert s b f pool').reallocated = false := by
  simp only [processConvert]
  rw [if_pos h]

theorem processConvert_pushed_eq (s : Session) (b : PwBuffer) (f : Frame)
    (pool' : List Frame) :
    (processConvert s b f pool').pushed
      = some (set_dims
          (if f.desc = updated_desc s b then f
           else ⟨s.fresh, updated_desc s b⟩) (used_dims s b)) := by
  simp only [processConvert]
  split
  case isTrue h => rfl
  case isFalse h => rfl

theorem crop_region_of_congr (s t : Session) (b : PwBuffer)
    (h : s.crop_opt = t.crop_opt) :
    crop_region_of s b = crop_region_of t b := by
  unfold crop_region_of
  rw [h]

theorem processConvert_pushed_desc (s : Session) (b : PwBuffer) (f : Frame)
    (pool' : List Frame) (g : Frame)
    (hg : (processConvert s b f pool').pushed = some g) :
    g.desc = { updated_desc s b with
        width := (used_dims s b).1
        height := (used_dims s b).2 } := by
  rw [processConvert_pushed_eq] at hg
  injection hg with hg'
  rw [← hg']
  unfold set_dims
  by_cases h : f.desc = updated_desc s b
  · rw [if_pos h, h]
  · rw [if_neg h]

/-- C8 counterexample: two consecutive deliveries under an identical
negotiated size/format each trigger a reallocation, because each pulls a
DIFFERENT stale frame from the pool — refuting "at most one buffer
reallocation (the first), not one per delivery". -/
theorem c8_counterexample :
    (processBuffer ex_stale_session ex_buffer).reallocated = true
    ∧ (processBuffer (processBuffer ex_stale_session ex_buffer).session
        ex_buffer).reallocated = true := by decide

/-- C8 (amended): reallocation is lazy and per-frame idempotent — a
delivery touches only the frame it pulls (the rest of the pool is never
eagerly resized), a pulled frame whose shape already matches the current
descriptor is not reallocated, and once a crop-carrying delivery has
shaped a frame, re-delivering the same buffer to that same frame
triggers no further reallocation.  Deliveries that pull distinct stale
pool frames may each trigger one reallocation. -/
theorem c8_realloc_lazy_idempotent (s : Session) (b : PwBuffer) :
    ((processBuffer s b).session.blank_frames = s.blank_frames
      ∨ ∃ f, s.blank_frames
          = f :: (processBuffer s b).session.blank_frames)
    ∧ (∀ f pool', s.blank_frames = f :: pool' →
        f.desc = updated_desc s b →
        (processBuffer s b).reallocated = false)
    ∧ (∀ r f2 pool2, crop_region_of s b = some r →
        (processBuffer s b).pushed = some f2 →
        (processBuffer
            { (processBuffer s b).session with blank_frames := f2 :: pool2 }
            b).reallocated = false) := by
  refine ⟨?_, ?_, ?_⟩
  · cases hce : chunk_empty b with
    | true => rw [processBuffer_drop_empty s b hce]; left; rfl
    | false =>
      cases hbf : s.blank_frames with
      | nil => rw [processBuffer_drop_pool s b hbf]; left; exact hbf
      | cons f pool' =>
        rw [processBuffer_eq_convert s b f pool' hce hbf]
        right
        exact ⟨f, by rw [processConvert_blank]⟩
  · intro f pool' hbf hmatch
    cases hce : chunk_empty b with
    | true => rw [processBuffer_drop_empty s b hce]
    | false =>
      rw [processBuffer_eq_convert s b f pool' hce hbf]
      exact processConvert_realloc_false s b f pool' hmatch
  · intro r f2 pool2 hcr hp
    cases hce : chunk_empty b with
    | true =>
      rw [processBuffer_drop_empty s b hce] at hp
      exact absurd hp (by simp)
    | false =>
      cases hbf : s.blank_frames with
      | nil =>
        rw [processBuffer_drop_pool s b hbf] at hp
        exact absurd hp (by simp)
      | cons f pool' =>
        rw [processBuffer_eq_convert s b f pool' hce hbf] at hp ⊢
        have hd : updated_desc s b
            = { s.desc with width := r.size.width, height := r.size.height } := by
          unfold updated_desc
          rw [hcr]
        have hwh : used_dims s b = (r.size.width, r.size.height) := by
          unfold used_dims
          rw [hcr]
        have hf2 : f2.desc = updated_desc s b := by
          rw [processConvert_pushed_desc s b f pool' f2 hp, hd, hwh]
        have ht : ({ (processConvert s b f pool').session with
            blank_frames := f2 :: pool2 } : Session).blank_frames
              = f2 :: pool2 := rfl
        rw [processBuffer_eq_convert _ b f2 pool2 hce ht]
        apply processConvert_realloc_false
        have hco : ({ (processConvert s b f pool').session with
            blank_frames := f2 :: pool2 } : Session).crop_opt = s.crop_opt :=
          processConvert_crop_opt s b f pool'
        have hcrt : crop_region_of
            { (processConvert s b f pool').session with
              blank_frames := f2 :: pool2 } b = some r := by
          rw [crop_region_of_congr _ s b hco, hcr]
        have htd : ({ (processConvert s b f pool').session with
            blank_frames := f2 :: pool2 } : Session).desc = updated_desc s b :=
          processConvert_desc s b f pool'
        unfold updated_desc
        rw [hcrt, htd, hf2, hd]

theorem c8_realloc_lazy_idempotent_witness :
    ((processBuffer ex_crop_session ex_crop_buffer).session.blank_frames
        = ex_crop_session.blank_frames
      ∨ ∃ f, ex_crop_session.blank_frames
          = f :: (processBuffer ex_crop_session ex_crop_buffer).session.blank_frames)
    ∧ (processBuffer
        { (processBuffer ex_crop_session ex_crop_buffer).session with
          blank_frames := [⟨3, ⟨50, 60, 30, 1⟩⟩] }
        ex_crop_buffer).reallocated = false := by
  have h := c8_realloc_lazy_idempotent ex_crop_session ex_crop_buffer
  exact ⟨h.1, h.2.2 ⟨⟨2, 2⟩, ⟨50, 60⟩⟩ ⟨3, ⟨50, 60, 30, 1⟩⟩ []
    (by decide) (by decide)⟩

theorem frameIds_split (s : Session) (f : Frame) (pool' : List Frame)
    (hbf : s.blank_frames = f :: pool') :
    frameIds s = {f.id} + ((↑(pool'.map Frame.id) : Multiset Nat)
        + ↑(s.sending_frames.map Frame.id) + inflight_ids s) := by
  unfold frameIds
  rw [hbf, List.map_cons, ← Multiset.cons_coe, ← Multiset.singleton_add]
  abel

theorem frameIds_convert_match (s : Session) (b : PwBuffer) (f : Frame)
    (pool' : List Frame) (h : f.desc = updated_desc s b) :
    frameIds (processConvert s b f pool').session
      = {f.id} + ((↑(pool'.map Frame.id) : Multiset Nat)
          + ↑(s.sending_frames.map Frame.id) + inflight_ids s)
    ∧ (processConvert s b f pool').session.fresh = s.fresh := by
  simp only [processConvert]
  rw [if_pos h]
  refine ⟨?_, rfl⟩
  show (↑(pool'.map Frame.id) : Multiset Nat)
      + ↑((s.sending_frames ++ [set_dims f (used_dims s b)]).map Frame.id)
      + inflight_ids s = _
  rw [List.map_append, List.map_cons, List.map_nil, ← Multiset.coe_add,
    Multiset.coe_singleton,
    show (set_dims f (used_dims s b)).id = f.id from rfl]
  abel

theorem frameIds_convert_realloc (s : Session) (b : PwBuffer) (f : Frame)
    (pool' : List Frame) (h : ¬f.desc = updated_desc s b) :
    frameIds (processConvert s b f pool').session
      = {s.fresh} + ((↑(pool'.map Frame.id) : Multiset Nat)
          + ↑(s.sending_frames.map Frame.id) + inflight_ids s)
    ∧ (processConvert s b f pool').session.fresh = s.fresh + 1
    ∧ (processConvert s b f pool').reallocated = true := by
  simp only [processConvert]
  rw [if_neg h]
  refine ⟨?_, rfl, rfl⟩
  show (↑(pool'.map Frame.id) : Multiset Nat)
      + ↑((s.sending_frames
            ++ [set_dims ⟨s.fresh, updated_desc s b⟩ (used_dims s b)]).map
            Frame.id)
      + inflight_ids s = _
  rw [List.map_append, List.map_cons, List.map_nil, ← Multiset.coe_add,
    Multiset.coe_singleton,
    show (set_dims ⟨s.fresh, updated_desc s b⟩ (used_dims s b)).id = s.fresh
      from rfl]
  abel

theorem frameIds_grab (s : Session) :
    frameIds (vidcap_screen_pw_grab s).1 = frameIds s
    ∧ (vidcap_screen_pw_grab s).1.fresh = s.fresh := by
  refine ⟨?_, ?_⟩
  · cases hif : s.in_flight_frame with
    | none =>
      cases hsf : s.sending_frames with
      | nil =>
        simp [vidcap_screen_pw_grab, timed_pop, frameIds, inflight_ids,
          hif, hsf]
      | cons g rest =>
        have hsess : (vidcap_screen_pw_grab s).1
            = { s with sending_frames := rest, in_flight_frame := some g } := by
          simp [vidcap_screen_pw_grab, timed_pop, hif, hsf]
        rw [hsess]
        show (↑(s.blank_frames.map Frame.id) : Multiset Nat)
            + ↑(rest.map Frame.id) + {g.id} = frameIds s
        unfold frameIds inflight_ids
        rw [hif, hsf, List.map_cons, ← Multiset.cons_coe,
          ← Multiset.singleton_add]
        abel
    | some f =>
      cases hsf : s.sending_frames with
      | nil =>
        have hsess : (vidcap_screen_pw_grab s).1
            = { s with
                blank_frames := f :: s.blank_frames
                sending_frames := []
                in_flight_frame := none } := by
          simp [vidcap_screen_pw_grab, timed_pop, hif, hsf]
        rw [hsess]
        show (↑((f :: s.blank_frames).map Frame.id) : Multiset Nat)
            + ↑(List.map Frame.id ([] : List Frame)) + 0 = frameIds s
        unfold frameIds inflight_ids
        rw [hif, hsf, List.map_cons, ← Multiset.cons_coe,
          ← Multiset.singleton_add]
        simp only [List.map_nil]
        abel
      | cons g rest =>
        have hsess : (vidcap_screen_pw_grab s).1
            = { s with
                blank_frames := f :: s.blank_frames
                sending_frames := rest
                in_flight_frame := some g } := by
          simp [vidcap_screen_pw_grab, timed_pop, hif, hsf]
        rw [hsess]
        show (↑((f :: s.blank_frames).map Frame.id) : Multiset Nat)
            + ↑(rest.map Frame.id) + {g.id} = frameIds s
        unfold frameIds inflight_ids
        rw [hif, hsf, List.map_cons, List.map_cons, ← Multiset.cons_coe,
          ← Multiset.cons_coe, ← Multiset.singleton_add,
          ← Multiset.singleton_add]
        abel
  · cases hif : s.in_flight_frame <;> cases hsf : s.sending_frames <;>
      simp [vidcap_screen_pw_grab, timed_pop, hif, hsf]

/-- C2 counterexample: a delivery that finds the pooled frame's shape
stale frees that frame mid-stream (its identity leaves the set of
frames in existence) while the handler queues the external buffer back
and continues — refuting "no frame is ever freed individually
mid-stream except at session teardown". -/
theorem c2_counterexample :
    (1 : Nat) ∈ frameIds ex_stale_session
    ∧ (1 : Nat) ∉ frameIds (processBuffer ex_stale_session ex_buffer).session
    ∧ (processBuffer ex_stale_session ex_buffer).released = 1 := by decide

/-- C2 (amended): after init the pool holds `QUEUE_SIZE` frames; every
delivery and every grab preserves the NUMBER of frames in existence and
the exactly-one-owner partition (no identity owned twice, all
identities below the allocation counter); and the only way a frame
ceases to exist mid-stream is the descriptor-mismatch reallocation,
which frees the pulled frame and allocates its replacement in the same
delivery. -/
theorem c2_pool_ownership (s : Session) (b : PwBuffer) (hwf : SessionWF s) :
    frameCount (processBuffer s b).session = frameCount s
    ∧ SessionWF (processBuffer s b).session
    ∧ (∀ i, i ∈ frameIds s → i ∉ frameIds (processBuffer s b).session →
        (processBuffer s b).reallocated = true)
    ∧ frameCount (vidcap_screen_pw_grab s).1 = frameCount s
    ∧ SessionWF (vidcap_screen_pw_grab s).1
    ∧ frameCount (init_session true) = QUEUE_SIZE
    ∧ SessionWF (init_session true) := by
  obtain ⟨hgid, hgfr⟩ := frameIds_grab s
  have hmain : frameCount (processBuffer s b).session = frameCount s
      ∧ SessionWF (processBuffer s b).session
      ∧ (∀ i, i ∈ frameIds s → i ∉ frameIds (processBuffer s b).session →
          (processBuffer s b).reallocated = true) := by
    cases hce : chunk_empty b with
    | true =>
      rw [processBuffer_drop_empty s b hce]
      exact ⟨rfl, hwf, fun i hi hni => absurd hi hni⟩
    | false =>
      cases hbf : s.blank_frames with
      | nil =>
        rw [processBuffer_drop_pool s b hbf]
        exact ⟨rfl, hwf, fun i hi hni => absurd hi hni⟩
      | cons f pool' =>
        rw [processBuffer_eq_convert s b f pool' hce hbf]
        have hsplit := frameIds_split s f pool' hbf
        by_cases hm : f.desc = updated_desc s b
        · obtain ⟨hids, hfr⟩ := frameIds_convert_match s b f pool' hm
          have heq : frameIds (processConvert s b f pool').session
              = frameIds s := by rw [hids, hsplit]
          refine ⟨by unfold frameCount; rw [heq], ?_,
            fun i hi hni => absurd (heq ▸ hi) hni⟩
          obtain ⟨hnd, hbd⟩ := hwf
          exact ⟨heq ▸ hnd, fun i hi => hfr ▸ hbd i (heq ▸ hi)⟩
        · obtain ⟨hids, hfr, hre⟩ := frameIds_convert_realloc s b f pool' hm
          obtain ⟨hnd, hbd⟩ := hwf
          rw [hsplit, Multiset.singleton_add] at hnd hbd
          have hndA := (Multiset.nodup_cons.mp hnd).2
          have hfA : s.fresh ∉ (↑(pool'.map Frame.id) : Multiset Nat)
              + ↑(s.sending_frames.map Frame.id) + inflight_ids s := by
            intro hmem
            have := hbd s.fresh (Multiset.mem_cons_of_mem hmem)
            omega
          refine ⟨?_, ⟨?_, ?_⟩, fun i hi hni => hre⟩
          · unfold frameCount
            rw [hids, hsplit, Multiset.singleton_add, Multiset.singleton_add,
              Multiset.card_cons, Multiset.card_cons]
          · rw [hids, Multiset.singleton_add]
            exact Multiset.nodup_cons.mpr ⟨hfA, hndA⟩
          · intro i hi
            rw [hids, Multiset.singleton_add] at hi
            rw [hfr]
            rcases Multiset.mem_cons.mp hi with h1 | h2
            · omega
            · have := hbd i (Multiset.mem_cons_of_mem h2)
              omega
  refine ⟨hmain.1, hmain.2.1, hmain.2.2, ?_, ?_, by decide, by decide⟩
  · unfold frameCount
    rw [hgid]
  · obtain ⟨hnd, hbd⟩ := hwf
    exact ⟨hgid ▸ hnd, fun i hi => hgfr ▸ hbd i (hgid ▸ hi)⟩

theorem c2_pool_ownership_witness :
    frameCount (processBuffer ex_stale_session ex_buffer).session
        = frameCount ex_stale_session
    ∧ SessionWF (processBuffer ex_stale_session ex_buffer).session
    ∧ frameCount (vidcap_screen_pw_grab ex_stale_session).1
        = frameCount ex_stale_session
    ∧ SessionWF (vidcap_screen_pw_grab ex_stale_session).1
    ∧ frameCount (init_session true) = QUEUE_SIZE
    ∧ SessionWF (init_session true) := by
  have h := c2_pool_ownership ex_stale_session ex_buffer (by decide)
  exact ⟨h.1, h.2.1, h.2.2.2.1, h.2.2.2.2.1, h.2.2.2.2.2.1, h.2.2.2.2.2.2⟩
